import Mathlib

/-!
Shallow embedding of the `streetlight` purge tool (`rm_ent.py`) from the
`warpcomdev/contadores` repository.

The embedding mirrors the Python source:

* `FetchError` — the exception raised on unexpected HTTP statuses, carrying
  the failing URL, the observed status and the request metadata.
* `BrokerSession` — the session object: connection handle (`session`),
  request headers, exit stack, domains and credentials.
* `BrokerSession.login` — `_login`: POST to the identity endpoint, requires
  status 201, extracts the `x-subject-token` header (a missing header is a
  key-lookup failure, as Python raises `KeyError` on `headers[...]`).
* `BrokerSession.entities` — GET `/v2/entities`, requires status 200 and
  partitions the body by `type` (via `matchItems`, the embedding of `_match`).
* `BrokerSession.deleteEntities` — `_delete_entities`: sequential DELETEs,
  fail-fast on any status other than 204.
* `BrokerSession.delete` — one purge pass: fetch the catalog, select the
  buckets whose type is in the death row, delete bucket by bucket.
* `aenter` / `aexit` / `withSession` — the async context-manager protocol of
  `__aenter__` / `__aexit__`, with the `AsyncExitStack` modelled as the list
  of resources it owns; the trace of `Event`s records connection
  acquisition/release and every HTTP request issued.
* `purgePass` / `doDeleteLoop` — the driving loop of `do_delete`, run against
  a broker modelled as a list of entities that answers every listing with
  status 200 and every delete with status 204, removing the deleted ids.

Responses are inputs: each operation is parameterised by the reply the
server would give, and returns the trace of requests it actually issued
together with its result (`Except` standing for raised exceptions).
-/

/-- An NGSI-v2 entity: an id, a type tag, and opaque extra attributes. -/
structure Entity where
  id : String
  type : String
  attrs : List (String × String) := []
deriving DecidableEq

/-- The login request body data (`self._credentials` holds the service
domain, user name and password nested in the password-grant JSON). -/
structure Credentials where
  service : String
  username : String
  password : String
deriving DecidableEq

/-- The `meta` payload attached to a `FetchError`: the login request body,
or the request headers for listing and delete. -/
inductive Meta where
  | body (credentials : Credentials)
  | headers (hs : List (String × String))
deriving DecidableEq

/-- `FetchError(url, resp, meta)`: records the URL, `resp.status` and the
metadata. -/
structure FetchError where
  url : String
  status : Nat
  meta : Meta
deriving DecidableEq

/-- An error escaping `_login`: either a `FetchError` (status ≠ 201) or the
`KeyError` Python raises when `reply.headers['x-subject-token']` is absent. -/
inductive LoginError where
  | fetch (e : FetchError)
  | keyError (key : String)
deriving DecidableEq

/-- A login reply: HTTP status and response headers. -/
structure LoginResponse where
  status : Nat
  headers : List (String × String)
deriving DecidableEq

/-- A listing reply: HTTP status and the JSON array of entities. -/
structure ListResponse where
  status : Nat
  body : List Entity
deriving DecidableEq

/-- An HTTP request issued by the session: login POST, entity-listing GET,
or a DELETE for one entity id. -/
inductive Request where
  | loginReq
  | listReq (subservice : String)
  | deleteReq (eid : String)
deriving DecidableEq

/-- A resource/lifecycle event: connection acquired, connection released, or
an HTTP request issued. -/
inductive Event where
  | acquireConn
  | releaseConn
  | req (r : Request)
deriving DecidableEq

/-- The session object. `session` models `self._session` (`none` before the
connection is opened), `stack` models `self._stack` (the resources owned by
the popped exit stack). -/
structure BrokerSession where
  session : Option Unit
  headers : List (String × String)
  stack : Option (List Unit)
  authDomain : String
  cbDomain : String
  credentials : Credentials
deriving DecidableEq

/-- `BrokerSession.__init__`: no connection, no stack, tenant header set. -/
def BrokerSession.init (authDomain cbDomain service username password : String) :
    BrokerSession :=
  { session := none
    headers := [("fiware-service", service)]
    stack := none
    authDomain := authDomain
    cbDomain := cbDomain
    credentials := ⟨service, username, password⟩ }

/-- The identity endpoint URL used by `_login`. -/
def loginUrl (bs : BrokerSession) : String :=
  bs.authDomain ++ "/idm/auth/tokens"

/-- The entity-listing URL used by `entities`. -/
def entitiesUrl (bs : BrokerSession) : String :=
  bs.cbDomain ++ "/v2/entities"

/-- The per-entity DELETE URL used by `_delete_entities`. -/
def deleteUrl (bs : BrokerSession) (eid : String) : String :=
  bs.cbDomain ++ "/v2/entities/" ++ eid

/-- The response header holding the token. -/
def tokenHeader : String := "x-subject-token"

/-- The headers of a listing or delete request:
`header = {'fiware-servicepath': subservice}; header.update(self._headers)`. -/
def passHeader (bs : BrokerSession) (subservice : String) :
    List (String × String) :=
  ("fiware-servicepath", subservice) :: bs.headers

/-- `_login`, parameterised by the server's reply. Returns the requests
issued and the result: `''` without any request if the connection is not
open, a `FetchError` if the status is not 201, a `KeyError` if the token
header is missing, otherwise the token. -/
def BrokerSession.login (bs : BrokerSession) (reply : LoginResponse) :
    List Request × Except LoginError String :=
  match bs.session with
  | none => ([], .ok "")
  | some _ =>
    ([Request.loginReq],
      if reply.status ≠ 201 then
        .error (.fetch ⟨loginUrl bs, reply.status, .body bs.credentials⟩)
      else
        match reply.headers.lookup tokenHeader with
        | some tok => .ok tok
        | none => .error (.keyError tokenHeader))

/-- `_match(items, type_name)`: the items whose `type` equals `type_name`,
in their original order (the DataFrame is indexed by `id`, preserving row
order). -/
def matchItems (items : List Entity) (typeName : String) : List Entity :=
  items.filter (fun item => item.type == typeName)

/-- `frozenset(item['type'] for item in items)`: the distinct type names,
here in first-occurrence order. -/
def tnames (items : List Entity) : List String :=
  (items.map (·.type)).dedup

/-- The catalog built by `entities`: one bucket per distinct type name. -/
def entitiesCatalog (items : List Entity) : List (String × List Entity) :=
  (tnames items).map (fun t => (t, matchItems items t))

/-- `entities(subservice)`, parameterised by the listing reply. Returns the
requests issued and either a `FetchError` (status ≠ 200) or the catalog. -/
def BrokerSession.entities (bs : BrokerSession) (subservice : String)
    (reply : ListResponse) :
    List Request × Except FetchError (List (String × List Entity)) :=
  match bs.session with
  | none => ([], .ok [])
  | some _ =>
    ([Request.listReq subservice],
      if reply.status ≠ 200 then
        .error ⟨entitiesUrl bs, reply.status, .headers (passHeader bs subservice)⟩
      else
        .ok (entitiesCatalog reply.body))

/-- The DELETE loop of `_delete_entities`: one request per id in order,
aborting at the first reply whose status is not 204. `ds` gives the status
the server answers for deleting each id. -/
def deleteLoop (bs : BrokerSession) (ds : String → Nat)
    (header : List (String × String)) :
    List String → List Request × Except FetchError Nat
  | [] => ([], .ok 0)
  | eid :: rest =>
    if ds eid = 204 then
      let r := deleteLoop bs ds header rest
      (Request.deleteReq eid :: r.1, r.2.map (· + 1))
    else
      ([Request.deleteReq eid], .error ⟨deleteUrl bs eid, ds eid, .headers header⟩)

/-- `_delete_entities(header, entities)`: returns 0 without any request if
the connection is not open, otherwise runs the DELETE loop over the frame's
ids. -/
def BrokerSession.deleteEntities (bs : BrokerSession) (ds : String → Nat)
    (header : List (String × String)) (ids : List String) :
    List Request × Except FetchError Nat :=
  match bs.session with
  | none => ([], .ok 0)
  | some _ => deleteLoop bs ds header ids

/-- `sum([await self._delete_entities(header, frame) for frame in purged])`:
the bucket list is processed left to right and an exception aborts the sum. -/
def sumBuckets (bs : BrokerSession) (ds : String → Nat)
    (header : List (String × String)) :
    List (List Entity) → List Request × Except FetchError Nat
  | [] => ([], .ok 0)
  | frame :: rest =>
    let r := bs.deleteEntities ds header (frame.map (·.id))
    match r.2 with
    | .error e => (r.1, .error e)
    | .ok n =>
      let r2 := sumBuckets bs ds header rest
      (r.1 ++ r2.1, r2.2.map (· + n))

/-- `delete(subservice, death_row)`: one purge pass, parameterised by the
listing reply and the delete statuses. -/
def BrokerSession.delete (bs : BrokerSession) (subservice : String)
    (deathRow : List String) (reply : ListResponse) (ds : String → Nat) :
    List Request × Except FetchError Nat :=
  let fetched := bs.entities subservice reply
  match fetched.2 with
  | .error e => (fetched.1, .error e)
  | .ok frames =>
    let purged := (frames.filter (fun p => deathRow.contains p.1)).map (·.2)
    let header := passHeader bs subservice
    let r := sumBuckets bs ds header purged
    (fetched.1 ++ r.1, r.2)

/-- `__aenter__`, parameterised by the login reply. An `AsyncExitStack` is
modelled as the list of resources it owns. The connection is acquired
(`ClientSession` entered on the stack), then `_login` runs; if it fails the
`async with` over the stack releases everything before the error escapes,
and `self._stack` stays `none`. On success `pop_all` transfers the stack
into the session and the token is stored in the headers. -/
def aenter (bs : BrokerSession) (reply : LoginResponse) :
    List Event × Except LoginError BrokerSession :=
  let bs1 : BrokerSession := { bs with session := some () }
  let stackRes : List Unit := [()]
  let r := bs1.login reply
  match r.2 with
  | .error e =>
    (Event.acquireConn :: (r.1.map Event.req ++ stackRes.map (fun _ => Event.releaseConn)),
      .error e)
  | .ok tok =>
    (Event.acquireConn :: r.1.map Event.req,
      .ok { bs1 with headers := bs1.headers ++ [(tokenHeader, tok)],
                     stack := some stackRes })

/-- `__aexit__`: closes the stack if present, releasing its resources. -/
def aexit (bs : BrokerSession) : List Event :=
  match bs.stack with
  | none => []
  | some st => st.map (fun _ => Event.releaseConn)

/-- `async with BrokerSession(...) as session: body` — if `__aenter__`
raises, `__aexit__` is not called; otherwise the body runs (issuing requests
and possibly raising a `FetchError`) and `__aexit__` runs on every exit. -/
def withSession (bs0 : BrokerSession) (reply : LoginResponse)
    (body : BrokerSession → List Request × Except FetchError Nat) :
    List Event × Except LoginError Nat :=
  let entered := aenter bs0 reply
  match entered.2 with
  | .error e => (entered.1, .error e)
  | .ok bs =>
    let b := body bs
    (entered.1 ++ b.1.map Event.req ++ aexit bs,
      match b.2 with
      | .ok n => .ok n
      | .error e => .error (.fetch e))

/-- The ids a purge pass sends DELETEs for, in pass order: the selected
buckets of the catalog, flattened. -/
def passList (deathRow : List String) (items : List Entity) : List String :=
  (((entitiesCatalog items).filter (fun p => deathRow.contains p.1)).map (·.2)).flatMap
    (fun frame => frame.map (·.id))

/-- The ids of the DELETE requests in a trace, in order. -/
def deletedIds (tr : List Request) : List String :=
  tr.filterMap (fun r => match r with | .deleteReq eid => some eid | _ => none)

/-- The broker state after the ids in `ids` have been deleted. -/
def applyDeletes (state : List Entity) (ids : List String) : List Entity :=
  state.filter (fun e => !(ids.contains e.id))

/-- One purge pass against a live broker holding `state`: the listing
answers 200 with the current state, every DELETE answers 204, and the broker
drops the deleted ids. Returns the trace, the pass result and the new
state. -/
def purgePass (bs : BrokerSession) (subservice : String)
    (deathRow : List String) (state : List Entity) :
    List Request × Except FetchError Nat × List Entity :=
  let r := bs.delete subservice deathRow ⟨200, state⟩ (fun _ => 204)
  (r.1, r.2, applyDeletes state (deletedIds r.1))

/-- The driving loop of `do_delete`:
`while (purged := await session.delete(subservice, death_row)) > 0`,
accumulating the total, here with explicit fuel. Returns the full trace,
the accumulated total and the final broker state. -/
def doDeleteLoop (bs : BrokerSession) (subservice : String)
    (deathRow : List String) : Nat → List Entity → List Request × Nat × List Entity
  | 0, state => ([], 0, state)
  | fuel + 1, state =>
    let p := purgePass bs subservice deathRow state
    let n := match p.2.1 with | .ok n => n | .error _ => 0
    if n > 0 then
      let rest := doDeleteLoop bs subservice deathRow fuel p.2.2
      (p.1 ++ rest.1, n + rest.2.1, rest.2.2)
    else
      (p.1, 0, p.2.2)

/-! ### Helper lemmas -/

theorem mem_matchItems {items : List Entity} {t : String} {e : Entity} :
    e ∈ matchItems items t ↔ e ∈ items ∧ e.type = t := by
  simp [matchItems]

theorem mem_tnames {items : List Entity} {t : String} :
    t ∈ tnames items ↔ ∃ e ∈ items, e.type = t := by
  simp [tnames]

theorem tnames_nodup (items : List Entity) : (tnames items).Nodup :=
  List.nodup_dedup _

theorem filter_beq_singleton {l : List String} {a : String}
    (hd : l.Nodup) (ha : a ∈ l) : l.filter (fun t => t == a) = [a] := by
  induction l with
  | nil => cases ha
  | cons b bs ih =>
    rcases List.nodup_cons.mp hd with ⟨hb, hbs⟩
    rcases List.mem_cons.mp ha with h | h
    · have hnil : bs.filter (fun t => t == a) = [] := by
        apply List.filter_eq_nil_iff.mpr
        intro x hx
        simp only [beq_iff_eq]
        intro hxa
        exact hb (h ▸ hxa ▸ hx)
      subst h
      simp [List.filter_cons, hnil]
    · have hba : ¬ (b == a) = true := by
        simp only [beq_iff_eq]
        intro hcontra
        exact hb (hcontra ▸ h)
      simp only [List.filter_cons, hba, if_neg, ih hbs h]
      simp [hba]

/-- A live session: what `__init__` builds, with the connection open. -/
def bsLive : BrokerSession :=
  { BrokerSession.init "https://auth" "http://cb" "svc" "user" "pw" with
      session := some () }

/-! ### C10 -/

/-- C10: with the connection unopened (`_session is None`), no operation
fails and no request is issued: login returns the empty string, the entity
fetch returns an empty mapping, and the per-bucket delete helper returns 0. -/
theorem closedSession_degenerate (bs : BrokerSession) (hs : bs.session = none)
    (reply : LoginResponse) (sub : String) (lreply : ListResponse)
    (ds : String → Nat) (header : List (String × String)) (ids : List String) :
    bs.login reply = ([], .ok "") ∧
    bs.entities sub lreply = ([], .ok []) ∧
    bs.deleteEntities ds header ids = ([], .ok 0) := by
  unfold BrokerSession.login BrokerSession.entities BrokerSession.deleteEntities
  rw [hs]
  exact ⟨rfl, rfl, rfl⟩

/-- Witness for C10 at a freshly constructed session. -/
theorem closedSession_degenerate_witness :
    (BrokerSession.init "a" "cb" "svc" "u" "p").login ⟨201, []⟩ = ([], .ok "") ∧
    (BrokerSession.init "a" "cb" "svc" "u" "p").entities "/demo" ⟨200, []⟩ = ([], .ok []) ∧
    (BrokerSession.init "a" "cb" "svc" "u" "p").deleteEntities (fun _ => 204) [] [] =
      ([], .ok 0) :=
  closedSession_degenerate _ rfl ⟨201, []⟩ "/demo" ⟨200, []⟩ (fun _ => 204) [] []

/-! ### C8 -/

/-- C8: a 201 login reply yields the value of the `x-subject-token` header;
a 201 reply without that header fails with an error (the key lookup),
never returning any token — in particular not an empty one. -/
theorem login_token_header (bs : BrokerSession) (reply : LoginResponse)
    (hs : bs.session = some ()) (h201 : reply.status = 201) :
    (∀ tok, reply.headers.lookup tokenHeader = some tok →
      (bs.login reply).2 = .ok tok) ∧
    (reply.headers.lookup tokenHeader = none →
      (bs.login reply).2 = .error (.keyError tokenHeader) ∧
      ∀ s, (bs.login reply).2 ≠ .ok s) := by
  unfold BrokerSession.login
  rw [hs]
  simp only [h201]
  constructor
  · intro tok hlook
    simp [hlook]
  · intro hlook
    simp [hlook]

/-- Witness for C8: a concrete 201 reply carrying the token header. -/
theorem login_token_header_witness :
    (bsLive.login ⟨201, [(tokenHeader, "tok123")]⟩).2 = .ok "tok123" :=
  (login_token_header bsLive ⟨201, [(tokenHeader, "tok123")]⟩ rfl rfl).1
    "tok123" rfl

/-! ### C1 -/

theorem entitiesCatalog_filter_mem {items : List Entity} {e : Entity}
    (he : e ∈ items) :
    (entitiesCatalog items).filter (fun p => decide (e ∈ p.2)) =
      [(e.type, matchItems items e.type)] := by
  unfold entitiesCatalog
  rw [List.filter_map]
  have hcong : List.filter
      ((fun p : String × List Entity => decide (e ∈ p.2)) ∘
        (fun t => (t, matchItems items t))) (tnames items) =
      List.filter (fun t => t == e.type) (tnames items) := by
    apply List.filter_congr
    intro t _
    simp only [Function.comp_apply]
    rw [Bool.eq_iff_iff]
    simp only [decide_eq_true_eq, beq_iff_eq, mem_matchItems, he, true_and]
    exact eq_comm
  rw [hcong,
    filter_beq_singleton (tnames_nodup items) (mem_tnames.mpr ⟨e, he, rfl⟩)]
  rfl

/-- C1: on a 200 listing reply over a live session, the fetch returns the
catalog, and that catalog is an exhaustive disjoint partition of the body:
each item lies in exactly one bucket — the one keyed by its `type` — every
bucket member's type names its key, and each bucket is a sublist of the body
(so bucket order matches response order). -/
theorem entities_partition (bs : BrokerSession) (sub : String)
    (reply : ListResponse) (hs : bs.session = some ())
    (h200 : reply.status = 200) :
    (bs.entities sub reply).2 = .ok (entitiesCatalog reply.body) ∧
    (∀ e ∈ reply.body,
      (entitiesCatalog reply.body).filter (fun p => decide (e ∈ p.2)) =
        [(e.type, matchItems reply.body e.type)]) ∧
    (∀ p ∈ entitiesCatalog reply.body, ∀ e ∈ p.2, e.type = p.1) ∧
    (∀ p ∈ entitiesCatalog reply.body, p.2.Sublist reply.body) := by
  refine ⟨?_, ?_, ?_, ?_⟩
  · unfold BrokerSession.entities
    rw [hs]
    simp [h200]
  · intro e he
    exact entitiesCatalog_filter_mem he
  · intro p hp e hep
    rcases List.mem_map.mp hp with ⟨t, _, rfl⟩
    exact (mem_matchItems.mp hep).2
  · intro p hp
    rcases List.mem_map.mp hp with ⟨t, _, rfl⟩
    exact List.filter_sublist _

/-- Witness for C1: a two-type body; the item of type `B` lies exactly in
the `B` bucket. -/
theorem entities_partition_witness :
    ((bsLive.entities "/demo"
        ⟨200, [⟨"e1", "A", []⟩, ⟨"e2", "B", []⟩]⟩).2 =
      .ok (entitiesCatalog [⟨"e1", "A", []⟩, ⟨"e2", "B", []⟩])) ∧
    ((entitiesCatalog [⟨"e1", "A", []⟩, ⟨"e2", "B", []⟩]).filter
        (fun p => decide ((⟨"e2", "B", []⟩ : Entity) ∈ p.2)) =
      [("B", matchItems [⟨"e1", "A", []⟩, ⟨"e2", "B", []⟩] "B")]) := by
  have h := entities_partition bsLive "/demo"
    ⟨200, [⟨"e1", "A", []⟩, ⟨"e2", "B", []⟩]⟩ rfl rfl
  exact ⟨h.1, h.2.1 ⟨"e2", "B", []⟩ (by simp)⟩

/-! ### Delete-loop lemmas -/

theorem deleteLoop_success (bs : BrokerSession) (ds : String → Nat)
    (header : List (String × String)) (ids : List String)
    (h : ∀ i ∈ ids, ds i = 204) :
    deleteLoop bs ds header ids = (ids.map Request.deleteReq, .ok ids.length) := by
  induction ids with
  | nil => rfl
  | cons x rest ih =>
    have hx : ds x = 204 := h x (List.mem_cons_self x rest)
    have ihr := ih (fun i hi => h i (List.mem_cons_of_mem x hi))
    simp [deleteLoop, hx, ihr, Except.map]

theorem deleteLoop_fail (bs : BrokerSession) (ds : String → Nat)
    (header : List (String × String)) (pre : List String) (x : String)
    (post : List String)
    (hpre : ∀ i ∈ pre, ds i = 204) (hx : ds x ≠ 204) :
    deleteLoop bs ds header (pre ++ x :: post) =
      ((pre ++ [x]).map Request.deleteReq,
        .error ⟨deleteUrl bs x, ds x, .headers header⟩) := by
  induction pre with
  | nil => simp [deleteLoop, hx]
  | cons y rest ih =>
    have hy : ds y = 204 := hpre y (List.mem_cons_self y rest)
    have ihr := ih (fun i hi => hpre i (List.mem_cons_of_mem y hi))
    simp [deleteLoop, hy, ihr, Except.map]

theorem deleteLoop_append_ok (bs : BrokerSession) (ds : String → Nat)
    (header : List (String × String)) {l1 : List String} (l2 : List String)
    {t1 : List Request} {n : Nat}
    (h1 : deleteLoop bs ds header l1 = (t1, .ok n)) :
    deleteLoop bs ds header (l1 ++ l2) =
      (t1 ++ (deleteLoop bs ds header l2).1,
        (deleteLoop bs ds header l2).2.map (· + n)) := by
  induction l1 generalizing t1 n with
  | nil =>
    simp only [deleteLoop] at h1
    obtain ⟨rfl, rfl⟩ : t1 = [] ∧ n = 0 := by
      exact ⟨congrArg Prod.fst h1.symm, by
        have := congrArg Prod.snd h1
        simpa using this.symm⟩
    rcases h2 : deleteLoop bs ds header l2 with ⟨t2, r2⟩
    cases r2 <;> simp [Except.map, h2]
  | cons y ys ih =>
    by_cases hy : ds y = 204
    · simp only [deleteLoop, hy, if_pos] at h1
      rcases hih : deleteLoop bs ds header ys with ⟨ty, ry⟩
      rw [hih] at h1
      cases ry with
      | error e => simp [Except.map] at h1
      | ok m =>
        simp only [Except.map] at h1
        obtain ⟨rfl, rfl⟩ : t1 = Request.deleteReq y :: ty ∧ n = m + 1 := by
          refine ⟨congrArg Prod.fst h1.symm, ?_⟩
          have := congrArg Prod.snd h1
          simpa using this.symm
        have step := ih hih
        show deleteLoop bs ds header (y :: (ys ++ l2)) = _
        simp only [deleteLoop, hy, if_pos, step]
        rcases h2 : deleteLoop bs ds header l2 with ⟨t2, r2⟩
        cases r2 <;> simp [Except.map, Nat.add_assoc]
    · simp only [deleteLoop, hy, if_neg] at h1
      exact absurd (congrArg Prod.snd h1) (by simp)

theorem deleteLoop_append_error (bs : BrokerSession) (ds : String → Nat)
    (header : List (String × String)) {l1 : List String} (l2 : List String)
    {t1 : List Request} {e : FetchError}
    (h1 : deleteLoop bs ds header l1 = (t1, .error e)) :
    deleteLoop bs ds header (l1 ++ l2) = (t1, .error e) := by
  induction l1 generalizing t1 with
  | nil =>
    have := congrArg Prod.snd h1
    simp [deleteLoop] at this
  | cons y ys ih =>
    by_cases hy : ds y = 204
    · simp only [deleteLoop, hy, if_pos] at h1
      rcases hih : deleteLoop bs ds header ys with ⟨ty, ry⟩
      rw [hih] at h1
      cases ry with
      | ok m => simp [Except.map] at h1
      | error e2 =>
        simp only [Except.map] at h1
        obtain ⟨rfl, rfl⟩ : t1 = Request.deleteReq y :: ty ∧ e = e2 := by
          refine ⟨congrArg Prod.fst h1.symm, ?_⟩
          have := congrArg Prod.snd h1
          simpa using this.symm
        have step := ih hih
        show deleteLoop bs ds header (y :: (ys ++ l2)) = _
        simp [deleteLoop, hy, step, Except.map]
    · simp only [deleteLoop, hy, if_neg] at h1
      obtain ⟨rfl, rfl⟩ : t1 = [Request.deleteReq y] ∧
          e = ⟨deleteUrl bs y, ds y, .headers header⟩ := by
        refine ⟨congrArg Prod.fst h1.symm, ?_⟩
        have := congrArg Prod.snd h1
        simpa using this.symm
      show deleteLoop bs ds header (y :: (ys ++ l2)) = _
      simp [deleteLoop, hy]

theorem sumBuckets_eq_deleteLoop (bs : BrokerSession) (ds : String → Nat)
    (header : List (String × String)) (frames : List (List Entity))
    (hs : bs.session = some ()) :
    sumBuckets bs ds header frames =
      deleteLoop bs ds header (frames.flatMap (fun f => f.map (·.id))) := by
  induction frames with
  | nil => rfl
  | cons f rest ih =>
    have hde : bs.deleteEntities ds header (f.map (·.id)) =
        deleteLoop bs ds header (f.map (·.id)) := by
      unfold BrokerSession.deleteEntities
      rw [hs]
    rcases hdl : deleteLoop bs ds header (f.map (·.id)) with ⟨t, r⟩
    cases r with
    | error e =>
      have := deleteLoop_append_error bs ds header
        (rest.flatMap (fun g => g.map (·.id))) hdl
      simp only [sumBuckets, hde, hdl, List.flatMap_cons, this]
    | ok n =>
      have := deleteLoop_append_ok bs ds header
        (rest.flatMap (fun g => g.map (·.id))) hdl
      simp only [sumBuckets, hde, hdl, List.flatMap_cons, this, ih]

/-- One purge pass over a live session and a 200 listing reply reduces to
the DELETE loop over the flattened selected buckets (`passList`). -/
theorem delete_pass_eq (bs : BrokerSession) (sub : String)
    (deathRow : List String) (items : List Entity) (ds : String → Nat)
    (hs : bs.session = some ()) :
    bs.delete sub deathRow ⟨200, items⟩ ds =
      (Request.listReq sub ::
        (deleteLoop bs ds (passHeader bs sub) (passList deathRow items)).1,
        (deleteLoop bs ds (passHeader bs sub) (passList deathRow items)).2) := by
  have hent : bs.entities sub ⟨200, items⟩ =
      ([Request.listReq sub], .ok (entitiesCatalog items)) := by
    unfold BrokerSession.entities
    rw [hs]
    simp
  unfold BrokerSession.delete
  rw [hent]
  simp only
  rw [sumBuckets_eq_deleteLoop bs ds (passHeader bs sub) _ hs]
  rfl

/-- The witnesses an error escaping the DELETE loop: it is the `FetchError`
of the first id whose reply is not 204. -/
theorem deleteLoop_error_spec (bs : BrokerSession) (ds : String → Nat)
    (header : List (String × String)) (ids : List String)
    (t : List Request) (e : FetchError)
    (h : deleteLoop bs ds header ids = (t, .error e)) :
    ∃ i ∈ ids, ds i ≠ 204 ∧ e = ⟨deleteUrl bs i, ds i, .headers header⟩ := by
  induction ids generalizing t e with
  | nil =>
    have := congrArg Prod.snd h
    simp [deleteLoop] at this
  | cons x rest ih =>
    by_cases hx : ds x = 204
    · simp only [deleteLoop, hx, if_pos] at h
      rcases hr : deleteLoop bs ds header rest with ⟨tr, rr⟩
      rw [hr] at h
      cases rr with
      | ok n =>
        have := congrArg Prod.snd h
        simp [Except.map] at this
      | error e2 =>
        have he : e2 = e := by
          have := congrArg Prod.snd h
          simpa [Except.map] using this
        obtain ⟨i, hi, hne, heq⟩ := ih tr e2 hr
        exact ⟨i, List.mem_cons_of_mem x hi, hne, he ▸ heq⟩
    · simp only [deleteLoop, hx, if_neg] at h
      have he : e = ⟨deleteUrl bs x, ds x, .headers header⟩ := by
        have := congrArg Prod.snd h
        simpa using this.symm
      exact ⟨x, List.mem_cons_self x rest, hx, he⟩

/-! ### C2 -/

/-- Discriminator: is this result a raised `FetchError`? -/
def errIsFetch : Except LoginError String → Bool
  | .error (.fetch _) => true
  | _ => false

/-- Counterexample to C2 as stated: on a live session, a login reply with
status 201 but no `x-subject-token` header makes `_login` raise a
key-lookup error (Python's `KeyError`), which is not a `FetchError` — so
`FetchError` is not the only error the core raises. -/
theorem login_keyError_not_fetchError :
    (bsLive.login ⟨201, []⟩).2 = .error (.keyError tokenHeader) ∧
    errIsFetch (bsLive.login ⟨201, []⟩).2 = false :=
  ⟨rfl, rfl⟩

/-- C2 (amended): on HTTP status failures the core raises exactly
`FetchError`, in exactly three situations — login status ≠ 201, listing
status ≠ 200, delete status ≠ 204 — each carrying the failing request's
URL, the observed response status, and the request body (login) or request
headers (listing, delete) as metadata; any other outcome of those three
calls is success, except a 201 login reply lacking the token header, which
raises a key-lookup error instead. -/
theorem fetchError_three_situations (bs : BrokerSession)
    (hs : bs.session = some ()) :
    (∀ reply : LoginResponse, reply.status ≠ 201 →
      (bs.login reply).2 =
        .error (.fetch ⟨loginUrl bs, reply.status, .body bs.credentials⟩)) ∧
    (∀ reply : LoginResponse, reply.status = 201 →
      (∀ tok, reply.headers.lookup tokenHeader = some tok →
        (bs.login reply).2 = .ok tok) ∧
      (reply.headers.lookup tokenHeader = none →
        (bs.login reply).2 = .error (.keyError tokenHeader))) ∧
    (∀ (sub : String) (reply : ListResponse), reply.status ≠ 200 →
      (bs.entities sub reply).2 =
        .error ⟨entitiesUrl bs, reply.status, .headers (passHeader bs sub)⟩) ∧
    (∀ (sub : String) (reply : ListResponse), reply.status = 200 →
      (bs.entities sub reply).2 = .ok (entitiesCatalog reply.body)) ∧
    (∀ (ds : String → Nat) (header : List (String × String)) (ids : List String),
      (∀ i ∈ ids, ds i = 204) →
        (bs.deleteEntities ds header ids).2 = .ok ids.length) ∧
    (∀ (ds : String → Nat) (header : List (String × String)) (ids : List String)
      (t : List Request) (e : FetchError),
      bs.deleteEntities ds header ids = (t, .error e) →
        ∃ i ∈ ids, ds i ≠ 204 ∧ e = ⟨deleteUrl bs i, ds i, .headers header⟩) := by
  have hde : ∀ ds header ids, bs.deleteEntities ds header ids =
      deleteLoop bs ds header ids := by
    intro ds header ids
    unfold BrokerSession.deleteEntities
    rw [hs]
  refine ⟨?_, ?_, ?_, ?_, ?_, ?_⟩
  · intro reply hst
    unfold BrokerSession.login
    rw [hs]
    simp [hst]
  · intro reply hst
    constructor
    · intro tok hlook
      unfold BrokerSession.login
      rw [hs]
      simp [hst, hlook]
    · intro hlook
      unfold BrokerSession.login
      rw [hs]
      simp [hst, hlook]
  · intro sub reply hst
    unfold BrokerSession.entities
    rw [hs]
    simp [hst]
  · intro sub reply hst
    unfold BrokerSession.entities
    rw [hs]
    simp [hst]
  · intro ds header ids hok
    rw [hde]
    rw [deleteLoop_success bs ds header ids hok]
  · intro ds header ids t e h
    rw [hde] at h
    exact deleteLoop_error_spec bs ds header ids t e h

/-- Witness for the amended C2: a 503 login reply yields the FetchError of
the login URL with status 503 and the credentials as metadata. -/
theorem fetchError_three_situations_witness :
    (bsLive.login ⟨503, []⟩).2 =
      .error (.fetch ⟨loginUrl bsLive, 503, .body bsLive.credentials⟩) :=
  (fetchError_three_situations bsLive rfl).1 ⟨503, []⟩ (by decide)

/-! ### C3 -/

/-- C3: if the pass order of matching entities splits as
`pre ++ failing :: post` — every delete before `failing` answered 204 and
the delete of `failing` answered something else — then the pass issues
exactly the DELETE requests for `pre` and `failing` (so none for the rest
of its bucket nor for later buckets) and aborts with the `FetchError` of
the failing entity; the deletes of `pre` were issued and acknowledged, and
nothing in the trace revokes them. -/
theorem pass_fail_fast (bs : BrokerSession) (sub : String)
    (deathRow : List String) (items : List Entity) (ds : String → Nat)
    (pre : List String) (x : String) (post : List String)
    (hs : bs.session = some ())
    (hsplit : passList deathRow items = pre ++ x :: post)
    (hpre : ∀ i ∈ pre, ds i = 204) (hx : ds x ≠ 204) :
    bs.delete sub deathRow ⟨200, items⟩ ds =
      (Request.listReq sub :: (pre ++ [x]).map Request.deleteReq,
        .error ⟨deleteUrl bs x, ds x, .headers (passHeader bs sub)⟩) := by
  rw [delete_pass_eq bs sub deathRow items ds hs, hsplit,
    deleteLoop_fail bs ds (passHeader bs sub) pre x post hpre hx]

/-- Witness for C3: three matching entities, the second delete fails with
status 404, so exactly two DELETE requests are issued. -/
theorem pass_fail_fast_witness :
    bsLive.delete "/demo" ["A"]
        ⟨200, [⟨"e1", "A", []⟩, ⟨"e2", "A", []⟩, ⟨"e3", "A", []⟩]⟩
        (fun i => if i = "e2" then 404 else 204) =
      (Request.listReq "/demo" ::
        (["e1"] ++ ["e2"]).map Request.deleteReq,
        .error ⟨deleteUrl bsLive "e2", 404, .headers (passHeader bsLive "/demo")⟩) := by
  have h := pass_fail_fast bsLive "/demo" ["A"]
    [⟨"e1", "A", []⟩, ⟨"e2", "A", []⟩, ⟨"e3", "A", []⟩]
    (fun i => if i = "e2" then 404 else 204)
    ["e1"] "e2" ["e3"] rfl (by rfl) (by decide) (by decide)
  simpa using h

/-! ### C7 -/

/-- C7: with an empty set of target types, a purge pass issues no DELETE
request and returns 0, and the driving loop halts after that first pass
with a total of 0 and the broker untouched. -/
theorem empty_deathRow_pass (bs : BrokerSession) (sub : String)
    (items : List Entity) (ds : String → Nat) (hs : bs.session = some ()) :
    bs.delete sub [] ⟨200, items⟩ ds = ([Request.listReq sub], .ok 0) ∧
    (∀ (fuel : Nat) (state : List Entity),
      doDeleteLoop bs sub [] (fuel + 1) state =
        ([Request.listReq sub], 0, state)) := by
  have hempty : ∀ its : List Entity, passList ([] : List String) its = [] := by
    intro its
    simp [passList]
  have hpass : ∀ (its : List Entity) (d : String → Nat),
      bs.delete sub [] ⟨200, its⟩ d = ([Request.listReq sub], .ok 0) := by
    intro its d
    rw [delete_pass_eq bs sub [] its d hs, hempty]
    rfl
  refine ⟨hpass items ds, ?_⟩
  intro fuel state
  have hp : purgePass bs sub [] state =
      ([Request.listReq sub], .ok 0, state) := by
    unfold purgePass
    rw [hpass state (fun _ => 204)]
    simp [applyDeletes, deletedIds]
  simp [doDeleteLoop, hp]

/-- Witness for C7 at a concrete one-entity broker. -/
theorem empty_deathRow_pass_witness :
    bsLive.delete "/demo" [] ⟨200, [⟨"e1", "A", []⟩]⟩ (fun _ => 204) =
      ([Request.listReq "/demo"], .ok 0) ∧
    doDeleteLoop bsLive "/demo" [] 1 [⟨"e1", "A", []⟩] =
      ([Request.listReq "/demo"], 0, [⟨"e1", "A", []⟩]) := by
  have h := empty_deathRow_pass bsLive "/demo" [⟨"e1", "A", []⟩]
    (fun _ => 204) rfl
  exact ⟨h.1, h.2 0 [⟨"e1", "A", []⟩]⟩

/-! ### Counting lemmas for C4 -/

theorem passList_eq_flatMap (deathRow : List String) (items : List Entity) :
    passList deathRow items =
      ((tnames items).filter (fun t => deathRow.contains t)).flatMap
        (fun t => (matchItems items t).map (·.id)) := by
  unfold passList entitiesCatalog
  rw [List.filter_map, List.map_map, List.flatMap_map]
  rfl

theorem sum_map_add_nat {α : Type} (l : List α) (f g : α → Nat) :
    (l.map (fun x => f x + g x)).sum = (l.map f).sum + (l.map g).sum := by
  induction l with
  | nil => rfl
  | cons x xs ih =>
    simp only [List.map_cons, List.sum_cons, ih]
    omega

theorem sum_map_ite_zero {l : List String} {a : String} (k : Nat)
    (ha : a ∉ l) : (l.map (fun t => if a = t then k else 0)).sum = 0 := by
  induction l with
  | nil => rfl
  | cons x xs ih =>
    have hax : ¬ a = x := fun h => ha (h ▸ List.mem_cons_self x xs)
    have haxs : a ∉ xs := fun h => ha (List.mem_cons_of_mem x h)
    simp [hax, ih haxs]

theorem sum_map_ite_one {l : List String} {a : String} (k : Nat)
    (hnd : l.Nodup) (ha : a ∈ l) :
    (l.map (fun t => if a = t then k else 0)).sum = k := by
  induction l with
  | nil => cases ha
  | cons x xs ih =>
    rcases List.nodup_cons.mp hnd with ⟨hx, hxs⟩
    rcases List.mem_cons.mp ha with h | h
    · subst h
      simp [sum_map_ite_zero k hx]
    · have hax : ¬ a = x := fun hh => hx (hh ▸ h)
      simp [hax, ih hxs h]

theorem countP_flatMap_types (items : List Entity) (S : List String)
    (hnd : S.Nodup) (hcov : ∀ e ∈ items, e.type ∈ S) (p : String → Bool)
    (q : Entity → Bool) :
    ((S.filter p).map
        (fun t => items.countP (fun e => e.type == t && q e))).sum =
      items.countP (fun e => p e.type && q e) := by
  induction items with
  | nil => simp
  | cons e rest ih =>
    have hcov2 : ∀ x ∈ rest, x.type ∈ S :=
      fun x hx => hcov x (List.mem_cons_of_mem e hx)
    have ihr := ih hcov2
    simp only [List.countP_cons]
    rw [sum_map_add_nat, ihr]
    congr 1
    by_cases hq : q e = true
    · have hmap : ((S.filter p).map
          (fun t => if (e.type == t && q e) = true then 1 else 0)) =
          ((S.filter p).map (fun t => if e.type = t then 1 else 0)) := by
        apply List.map_congr_left
        intro t _
        simp [hq]
      rw [hmap]
      by_cases hp : p e.type = true
      · have hmem : e.type ∈ S.filter p :=
          List.mem_filter.mpr ⟨hcov e (List.mem_cons_self e rest), hp⟩
        rw [sum_map_ite_one 1 (hnd.filter p) hmem]
        simp [hp, hq]
      · have hmem : e.type ∉ S.filter p := by
          intro hmem
          exact hp (List.mem_filter.mp hmem).2
        rw [sum_map_ite_zero 1 hmem]
        simp [hp]
    · have hq0 : q e = false := by
        revert hq
        cases q e <;> simp
      have hmap : ((S.filter p).map
          (fun t => if (e.type == t && q e) = true then 1 else 0)) =
          ((S.filter p).map (fun _ => 0)) := by
        apply List.map_congr_left
        intro t _
        simp [hq0]
      rw [hmap]
      simp [hq0]

theorem count_flatMap_strings {α : Type} (l : List α) (f : α → List String)
    (i : String) :
    (l.flatMap f).count i = (l.map (fun x => (f x).count i)).sum := by
  induction l with
  | nil => rfl
  | cons x xs ih =>
    rw [List.flatMap_cons, List.count_append, ih]
    simp

/-- The DELETE targets of a pass are exactly the matching entities' ids,
one per entity (equal as multisets). -/
theorem passList_perm (deathRow : List String) (items : List Entity) :
    (passList deathRow items).Perm
      ((items.filter (fun e => deathRow.contains e.type)).map (·.id)) := by
  rw [List.perm_iff_count]
  intro i
  rw [passList_eq_flatMap, count_flatMap_strings]
  have hbucket : ∀ t : String,
      ((matchItems items t).map (·.id)).count i =
        items.countP (fun e => e.type == t && (e.id == i)) := by
    intro t
    show ((matchItems items t).map (·.id)).countP (· == i) = _
    rw [List.countP_map]
    unfold matchItems
    rw [List.countP_filter]
    apply List.countP_congr
    intro e _
    simp [Function.comp, Bool.and_comm]
  have hmapc : ((tnames items).filter (fun t => deathRow.contains t)).map
      (fun t => ((matchItems items t).map (·.id)).count i) =
      ((tnames items).filter (fun t => deathRow.contains t)).map
      (fun t => items.countP (fun e => e.type == t && (e.id == i))) := by
    apply List.map_congr_left
    intro t _
    exact hbucket t
  rw [hmapc,
    countP_flatMap_types items (tnames items) (tnames_nodup items)
      (fun e he => mem_tnames.mpr ⟨e, he, rfl⟩) (fun t => deathRow.contains t)
      (fun e => e.id == i)]
  show _ = ((items.filter (fun e => deathRow.contains e.type)).map (·.id)).countP (· == i)
  rw [List.countP_map, List.countP_filter]
  apply List.countP_congr
  intro e _
  simp [Function.comp, Bool.and_comm]

/-! ### C4 -/

/-- C4: when every issued DELETE answers 204, a purge pass issues the
listing request followed by exactly one DELETE per entity of a targeted
type, keyed by that entity's id (the multiset of DELETE targets equals the
multiset of matching entities' ids), and returns the number of matching
entities. -/
theorem pass_success_delete_per_entity (bs : BrokerSession) (sub : String)
    (deathRow : List String) (items : List Entity) (ds : String → Nat)
    (hs : bs.session = some ())
    (hok : ∀ i ∈ passList deathRow items, ds i = 204) :
    bs.delete sub deathRow ⟨200, items⟩ ds =
      (Request.listReq sub :: (passList deathRow items).map Request.deleteReq,
        .ok ((items.filter (fun e => deathRow.contains e.type)).length)) ∧
    (passList deathRow items).Perm
      ((items.filter (fun e => deathRow.contains e.type)).map (·.id)) := by
  have hperm := passList_perm deathRow items
  refine ⟨?_, hperm⟩
  rw [delete_pass_eq bs sub deathRow items ds hs,
    deleteLoop_success bs ds (passHeader bs sub) _ hok]
  have hlen : (passList deathRow items).length =
      (items.filter (fun e => deathRow.contains e.type)).length := by
    rw [hperm.length_eq, List.length_map]
  rw [hlen]

/-- Witness for C4: two matching entities out of three, all deletes 204,
count 2. -/
theorem pass_success_delete_per_entity_witness :
    bsLive.delete "/demo" ["A"]
        ⟨200, [⟨"e1", "A", []⟩, ⟨"e2", "B", []⟩, ⟨"e3", "A", []⟩]⟩
        (fun _ => 204) =
      (Request.listReq "/demo" ::
        (passList ["A"] [⟨"e1", "A", []⟩, ⟨"e2", "B", []⟩, ⟨"e3", "A", []⟩]).map
          Request.deleteReq,
        .ok (([⟨"e1", "A", []⟩, ⟨"e2", "B", []⟩, ⟨"e3", "A", []⟩] :
          List Entity).filter (fun e => List.contains ["A"] e.type)).length) ∧
    (passList ["A"] [⟨"e1", "A", []⟩, ⟨"e2", "B", []⟩, ⟨"e3", "A", []⟩]).Perm
      ((([⟨"e1", "A", []⟩, ⟨"e2", "B", []⟩, ⟨"e3", "A", []⟩] :
        List Entity).filter (fun e => List.contains ["A"] e.type)).map (·.id)) :=
  pass_success_delete_per_entity bsLive "/demo" ["A"]
    [⟨"e1", "A", []⟩, ⟨"e2", "B", []⟩, ⟨"e3", "A", []⟩] (fun _ => 204) rfl
    (fun _ _ => rfl)

/-! ### C5 -/

theorem aenter_error (bs0 : BrokerSession) (reply : LoginResponse)
    (e : LoginError)
    (h : (({ bs0 with session := some () } : BrokerSession).login reply).2 =
      .error e) :
    aenter bs0 reply =
      ([Event.acquireConn, Event.req Request.loginReq, Event.releaseConn],
        .error e) := by
  have hpair : ({ bs0 with session := some () } : BrokerSession).login reply =
      ([Request.loginReq], .error e) := by
    have h1 : (({ bs0 with session := some () } : BrokerSession).login reply).1 =
        [Request.loginReq] := rfl
    exact Prod.ext h1 h
  simp only [aenter]
  rw [hpair]
  rfl

theorem aenter_ok (bs0 : BrokerSession) (reply : LoginResponse) (tok : String)
    (h : (({ bs0 with session := some () } : BrokerSession).login reply).2 =
      .ok tok) :
    aenter bs0 reply =
      ([Event.acquireConn, Event.req Request.loginReq],
        .ok { bs0 with session := some ()
                       headers := bs0.headers ++ [(tokenHeader, tok)]
                       stack := some [()] }) := by
  have hpair : ({ bs0 with session := some () } : BrokerSession).login reply =
      ([Request.loginReq], .ok tok) := by
    have h1 : (({ bs0 with session := some () } : BrokerSession).login reply).1 =
        [Request.loginReq] := rfl
    exact Prod.ext h1 h
  simp only [aenter]
  rw [hpair]
  rfl

/-- C5: whatever the exit path of the scoped session block — successful
body, a FetchError raised by the body, or a login failure during entry —
the connection is released exactly once; and when login fails during entry
the trace is exactly acquire, login request, release: the connection is
released before the failure surfaces and no listing or delete request is
ever issued. -/
theorem session_resource_safety (bs0 : BrokerSession) (reply : LoginResponse)
    (body : BrokerSession → List Request × Except FetchError Nat) :
    ((withSession bs0 reply body).1.count Event.releaseConn = 1) ∧
    (∀ e : LoginError,
      (({ bs0 with session := some () } : BrokerSession).login reply).2 =
        .error e →
      withSession bs0 reply body =
        ([Event.acquireConn, Event.req Request.loginReq, Event.releaseConn],
          .error e)) := by
  have hnorel : ∀ l : List Request,
      (l.map Event.req).count Event.releaseConn = 0 := by
    intro l
    rw [List.count_eq_zero]
    intro hmem
    rcases List.mem_map.mp hmem with ⟨r, _, hr⟩
    simp at hr
  have hfail : ∀ e : LoginError,
      (({ bs0 with session := some () } : BrokerSession).login reply).2 =
        .error e →
      withSession bs0 reply body =
        ([Event.acquireConn, Event.req Request.loginReq, Event.releaseConn],
          .error e) := by
    intro e he
    simp only [withSession]
    rw [aenter_error bs0 reply e he]
  refine ⟨?_, hfail⟩
  cases hres : (({ bs0 with session := some () } : BrokerSession).login reply).2 with
  | error e =>
    rw [hfail e hres]
    rfl
  | ok tok =>
    simp only [withSession]
    rw [aenter_ok bs0 reply tok hres]
    simp only [aexit]
    simp [List.count_append, List.count_cons, hnorel]

/-- Witness for C5: a rejected login (status 500) on a fresh session —
the failure path releases the connection exactly once and issues only the
login request. -/
theorem session_resource_safety_witness :
    ((withSession (BrokerSession.init "a" "cb" "svc" "u" "p") ⟨500, []⟩
        (fun _ => ([], .ok 0))).1.count Event.releaseConn = 1) ∧
    (withSession (BrokerSession.init "a" "cb" "svc" "u" "p") ⟨500, []⟩
        (fun _ => ([], .ok 0)) =
      ([Event.acquireConn, Event.req Request.loginReq, Event.releaseConn],
        .error (.fetch ⟨loginUrl (BrokerSession.init "a" "cb" "svc" "u" "p"),
          500, .body (BrokerSession.init "a" "cb" "svc" "u" "p").credentials⟩))) := by
  have h := session_resource_safety (BrokerSession.init "a" "cb" "svc" "u" "p")
    ⟨500, []⟩ (fun _ => ([], .ok 0))
  exact ⟨h.1, h.2 _ rfl⟩

/-- One unfolding step of the driving loop. -/
theorem doDeleteLoop_succ (bs : BrokerSession) (sub : String)
    (deathRow : List String) (fuel : Nat) (state : List Entity) :
    doDeleteLoop bs sub deathRow (fuel + 1) state =
      (let p := purgePass bs sub deathRow state
       let n := match p.2.1 with | .ok n => n | .error _ => 0
       if n > 0 then
         let rest := doDeleteLoop bs sub deathRow fuel p.2.2
         (p.1 ++ rest.1, n + rest.2.1, rest.2.2)
       else
         (p.1, 0, p.2.2)) := rfl

/-! ### C6 -/

/-- The six-entity broker of the spec's worked example. -/
def state6 : List Entity :=
  [⟨"sl1", "Streetlight", []⟩,
   ⟨"cab1", "StreetlightControlCabinet", []⟩,
   ⟨"sl2", "Streetlight", []⟩,
   ⟨"oth1", "Other", []⟩,
   ⟨"sl3", "Streetlight", []⟩,
   ⟨"cab2", "StreetlightControlCabinet", []⟩]

/-- The fixed death row of the CLI command. -/
def deathRow6 : List String := ["Streetlight", "StreetlightControlCabinet"]

/-- Is a request a DELETE? -/
def isDeleteReq : Request → Bool
  | .deleteReq _ => true
  | _ => false

/-- C6: on the 3+2+1 broker, the first pass deletes 5 entities, the second
pass returns 0 and stops the loop, the loop reports a total of 5, the final
broker keeps only the `Other` entity, and exactly 5 DELETE requests are
issued in the whole run — independent of any extra fuel. -/
theorem six_entity_run (fuel : Nat) :
    (purgePass bsLive "/demo" deathRow6 state6).2.1 = .ok 5 ∧
    (purgePass bsLive "/demo" deathRow6
        (purgePass bsLive "/demo" deathRow6 state6).2.2).2.1 = .ok 0 ∧
    doDeleteLoop bsLive "/demo" deathRow6 (fuel + 2) state6 =
      ([Request.listReq "/demo",
        Request.deleteReq "sl1", Request.deleteReq "sl2",
        Request.deleteReq "sl3", Request.deleteReq "cab1",
        Request.deleteReq "cab2", Request.listReq "/demo"], 5,
        [⟨"oth1", "Other", []⟩]) ∧
    (doDeleteLoop bsLive "/demo" deathRow6 (fuel + 2) state6).1.countP
      isDeleteReq = 5 := by
  have h1 : purgePass bsLive "/demo" deathRow6 state6 =
      ([Request.listReq "/demo",
        Request.deleteReq "sl1", Request.deleteReq "sl2",
        Request.deleteReq "sl3", Request.deleteReq "cab1",
        Request.deleteReq "cab2"], .ok 5, [⟨"oth1", "Other", []⟩]) := by
    rfl
  have h2 : purgePass bsLive "/demo" deathRow6 [⟨"oth1", "Other", []⟩] =
      ([Request.listReq "/demo"], .ok 0, [⟨"oth1", "Other", []⟩]) := by
    rfl
  have hloop : doDeleteLoop bsLive "/demo" deathRow6 (fuel + 2) state6 =
      ([Request.listReq "/demo",
        Request.deleteReq "sl1", Request.deleteReq "sl2",
        Request.deleteReq "sl3", Request.deleteReq "cab1",
        Request.deleteReq "cab2", Request.listReq "/demo"], 5,
        [⟨"oth1", "Other", []⟩]) := by
    have hinner : doDeleteLoop bsLive "/demo" deathRow6 (fuel + 1)
        [⟨"oth1", "Other", []⟩] =
        ([Request.listReq "/demo"], 0, [⟨"oth1", "Other", []⟩]) := by
      rw [doDeleteLoop_succ, h2]
      rfl
    rw [doDeleteLoop_succ, h1]
    simp [hinner]
  refine ⟨by rw [h1], by rw [h1]; rw [h2], hloop, ?_⟩
  rw [hloop]
  rfl

/-- Witness for C6: the run with no extra fuel. -/
theorem six_entity_run_witness :
    doDeleteLoop bsLive "/demo" deathRow6 2 state6 =
      ([Request.listReq "/demo",
        Request.deleteReq "sl1", Request.deleteReq "sl2",
        Request.deleteReq "sl3", Request.deleteReq "cab1",
        Request.deleteReq "cab2", Request.listReq "/demo"], 5,
        [⟨"oth1", "Other", []⟩]) :=
  (six_entity_run 0).2.2.1

/-! ### C9 -/

theorem deletedIds_listReq_map (s : String) (ids : List String) :
    deletedIds (Request.listReq s :: ids.map Request.deleteReq) = ids := by
  unfold deletedIds
  rw [List.filterMap_cons]
  simp only []
  induction ids with
  | nil => rfl
  | cons x rest ih =>
    rw [List.map_cons, List.filterMap_cons] at *
    simpa using ih

/-- One purge pass against the always-successful broker: the trace is the
listing request plus one DELETE per pass-list id, the count is the number
of matching entities, and the new state drops exactly the pass-list ids. -/
theorem purgePass_success_eq (bs : BrokerSession) (sub : String)
    (dr : List String) (state : List Entity) (hs : bs.session = some ()) :
    purgePass bs sub dr state =
      (Request.listReq sub :: (passList dr state).map Request.deleteReq,
        .ok ((state.filter (fun e => dr.contains e.type)).length),
        applyDeletes state (passList dr state)) := by
  have hd := (pass_success_delete_per_entity bs sub dr state (fun _ => 204)
    hs (fun _ _ => rfl)).1
  unfold purgePass
  rw [hd]
  simp [deletedIds_listReq_map]

theorem id_mem_passList {dr : List String} {state : List Entity} {e : Entity}
    (he : e ∈ state) (ht : dr.contains e.type = true) :
    e.id ∈ passList dr state := by
  rw [passList_eq_flatMap]
  apply List.mem_flatMap.mpr
  refine ⟨e.type, ?_, ?_⟩
  · exact List.mem_filter.mpr ⟨mem_tnames.mpr ⟨e, he, rfl⟩, ht⟩
  · exact List.mem_map.mpr ⟨e, mem_matchItems.mpr ⟨he, rfl⟩, rfl⟩

/-- After a successful pass no entity of a targeted type remains. -/
theorem applyDeletes_no_match (dr : List String) (state : List Entity) :
    ∀ e ∈ applyDeletes state (passList dr state),
      dr.contains e.type = false := by
  intro e he
  rcases List.mem_filter.mp he with ⟨hes, hnc⟩
  by_contra hcon
  have ht : dr.contains e.type = true := by
    revert hcon
    cases dr.contains e.type <;> simp
  have hmem := id_mem_passList hes ht
  simp at hnc
  exact hnc hmem

/-- A pass over a broker with no matching entity: one listing request, zero
deletes, state unchanged. -/
theorem purgePass_no_match (bs : BrokerSession) (sub : String)
    (dr : List String) (state : List Entity) (hs : bs.session = some ())
    (h : ∀ e ∈ state, dr.contains e.type = false) :
    purgePass bs sub dr state = ([Request.listReq sub], .ok 0, state) := by
  have hpl : passList dr state = [] := by
    rw [passList_eq_flatMap]
    have hf : (tnames state).filter (fun t => dr.contains t) = [] := by
      apply List.filter_eq_nil_iff.mpr
      intro t ht
      rcases mem_tnames.mp ht with ⟨e, he, rfl⟩
      simpa using h e he
    rw [hf]
    rfl
  have hcnt : (state.filter (fun e => dr.contains e.type)) = [] := by
    apply List.filter_eq_nil_iff.mpr
    intro e he
    simpa using h e he
  rw [purgePass_success_eq bs sub dr state hs, hpl, hcnt]
  simp [applyDeletes]

/-- The broker state a run of the loop ends in holds no targeted entity. -/
theorem doDeleteLoop_final_no_match (bs : BrokerSession) (sub : String)
    (dr : List String) (hs : bs.session = some ()) :
    ∀ (fuel : Nat) (state : List Entity),
      ∀ e ∈ (doDeleteLoop bs sub dr (fuel + 1) state).2.2,
        dr.contains e.type = false := by
  intro fuel
  induction fuel with
  | zero =>
    intro state e he
    rw [doDeleteLoop_succ, purgePass_success_eq bs sub dr state hs] at he
    simp only [doDeleteLoop] at he
    split at he <;> exact applyDeletes_no_match dr state e (by simpa using he)
  | succ f ih =>
    intro state e he
    rw [doDeleteLoop_succ, purgePass_success_eq bs sub dr state hs] at he
    simp only [] at he
    split at he
    · have := ih (applyDeletes state (passList dr state)) e (by simpa using he)
      exact this
    · exact applyDeletes_no_match dr state e (by simpa using he)

/-- C9: a second run of the purge loop, started from the broker state a
first run ended in, immediately observes a zero-count pass: it issues one
listing request and no DELETE at all, reports a total of 0, and leaves the
broker unchanged. -/
theorem second_run_zero (bs : BrokerSession) (sub : String) (dr : List String)
    (hs : bs.session = some ()) (f1 f2 : Nat) (state : List Entity) :
    doDeleteLoop bs sub dr (f2 + 1)
        ((doDeleteLoop bs sub dr (f1 + 1) state).2.2) =
      ([Request.listReq sub], 0,
        (doDeleteLoop bs sub dr (f1 + 1) state).2.2) := by
  have hnm := doDeleteLoop_final_no_match bs sub dr hs f1 state
  rw [doDeleteLoop_succ, purgePass_no_match bs sub dr _ hs hnm]
  rfl

/-- Witness for C9 on the six-entity broker. -/
theorem second_run_zero_witness :
    doDeleteLoop bsLive "/demo" deathRow6 1
        ((doDeleteLoop bsLive "/demo" deathRow6 1 state6).2.2) =
      ([Request.listReq "/demo"], 0,
        (doDeleteLoop bsLive "/demo" deathRow6 1 state6).2.2) :=
  second_run_zero bsLive "/demo" deathRow6 rfl 0 0 state6
